import Mathlib

/-!
Verification of the RentAnalyzer booking pipeline (`main_file_analyzer.py`)
against its specification.

The pandas pipeline is shallowly embedded:
* a DataFrame is a list of rows (plus, where the code inspects `df.columns`,
  an explicit list of column names);
* `pd.to_datetime(·, dayfirst=True, errors="coerce")` is an abstract total
  function `String → Option Date` (coercion never raises; unparseable
  strings become `none`, pandas' `NaT`);
* pandas timestamps are calendar dates; their linear time order and
  whole-day differences go through `Date.toDays` (the standard civil
  day-count algorithm);
* `df.sort_values([c₁, c₂])` on two columns is `np.lexsort`, a stable sort,
  embedded as `List.insertionSort` with the lexicographic row relation;
* `logger.warning` calls are collected as a list of warning payloads;
* in-place DataFrame mutation in the writer is modelled by an explicit
  store of tables addressed by references.
-/

/-- A calendar date, as carried by a pandas timestamp (time-of-day is
zero for parsed date strings). -/
structure Date where
  year : Int
  month : Nat
  day : Nat
deriving DecidableEq, Repr

/-- Days since 1970-01-01 (the civil-calendar day count used by every
datetime library, pandas included): gives the linear order of timestamps
and whole-day differences (`timedelta.days`). -/
def Date.toDays (dt : Date) : Int :=
  let y : Int := if dt.month ≤ 2 then dt.year - 1 else dt.year
  let era : Int := (if 0 ≤ y then y else y - 399) / 400
  let yoe : Int := y - era * 400
  let mp : Int := ((dt.month : Int) + 9) % 12
  let doy : Int := (153 * mp + 2) / 5 + (dt.day : Int) - 1
  let doe : Int := yoe * 365 + yoe / 4 - yoe / 100 + doy
  era * 146097 + doe - 719468

/-- A year-month grouping period, the value of `ts.to_period("M")`. -/
abbrev Period := Int × Nat

/-- The period (year, month) of a date: `Series.dt.to_period("M")`
element-wise. -/
def Date.period (dt : Date) : Period := (dt.year, dt.month)

/-- Lexicographic "less or equal" on pairs of linearly ordered components;
the order `np.lexsort` / `DataFrame.sort_values` uses for a two-column
ascending sort key. -/
def pairLe {α β : Type} [LinearOrder α] [LinearOrder β] (p q : α × β) : Prop :=
  p.1 < q.1 ∨ (p.1 = q.1 ∧ p.2 ≤ q.2)

instance {α β : Type} [LinearOrder α] [LinearOrder β] :
    DecidableRel (pairLe (α := α) (β := β)) := by
  intro p q; unfold pairLe; infer_instance

theorem pairLe_total {α β : Type} [LinearOrder α] [LinearOrder β]
    (p q : α × β) : pairLe p q ∨ pairLe q p := by
  rcases lt_trichotomy p.1 q.1 with h | h | h
  · exact Or.inl (Or.inl h)
  · rcases le_total p.2 q.2 with h2 | h2
    · exact Or.inl (Or.inr ⟨h, h2⟩)
    · exact Or.inr (Or.inr ⟨h.symm, h2⟩)
  · exact Or.inr (Or.inl h)

theorem pairLe_trans {α β : Type} [LinearOrder α] [LinearOrder β]
    {p q r : α × β} (h1 : pairLe p q) (h2 : pairLe q r) : pairLe p r := by
  rcases h1 with h1 | ⟨e1, l1⟩
  · rcases h2 with h2 | ⟨e2, _⟩
    · exact Or.inl (h1.trans h2)
    · exact Or.inl (e2 ▸ h1)
  · rcases h2 with h2 | ⟨e2, l2⟩
    · exact Or.inl (e1 ▸ h2)
    · exact Or.inr ⟨e1.trans e2, l1.trans l2⟩

/-- `AppConfig.COMMISSION_RATES`: an ordered table of buckets, each a rate
(the `float(rate_str)` value, exact rational here) together with the set of
source names it covers; python dicts iterate in insertion order, so the
table is an ordered list of (rate, sources) pairs. The pipeline is
parameterized by it (its concrete value lives in the external `settings`
module). -/
abbrev RateTable := List (Rat × List String)

/-- `calculate_income(row)`: scan the rate-table buckets in order; on the
first bucket whose source set contains the row's `Источник`, return
`Сумма * rate`; if no bucket matches, return `Сумма` unchanged. -/
def calculate_income (rates : RateTable) (source : String) (amount : Rat) : Rat :=
  match rates with
  | [] => amount
  | (rate, sources) :: rest =>
      if source ∈ sources then amount * rate
      else calculate_income rest source amount

/-- A raw input row, with the five required columns' values; `Сумма` is the
numeric amount, `Заезд`/`Выезд` are the unparsed date strings. -/
structure RawRow where
  obj : String
  source : String
  amount : Rat
  arrival : String
  departure : String
deriving DecidableEq, Repr

/-- The raw DataFrame handed to `normalize_data`: its column-name list
(`df.columns`, checked by the schema validation) and its rows. -/
structure RawTable where
  cols : List String
  rows : List RawRow
deriving DecidableEq, Repr

/-- Modelled from the spec: `AppConfig.REQUIRED_COLUMNS` lives in the
external `settings` module, absent from the sources; the spec requires
{property, source, amount, arrival date, departure date} under their
locale-specific names, which are the Russian column names the pipeline
reads: `Объект`, `Источник`, `Сумма`, `Заезд`, `Выезд`. -/
def REQUIRED_COLUMNS : List String := ["Объект", "Источник", "Сумма", "Заезд", "Выезд"]

/-- A row after income computation and date parsing: the date fields hold
`none` for pandas `NaT` (an unparseable input string under
`errors="coerce"`). -/
structure PRow where
  obj : String
  source : String
  amount : Rat
  income : Rat
  arrival : Option Date
  departure : Option Date
deriving DecidableEq, Repr

/-- `validate_dates(df)`: build the mask of rows whose `Заезд` or `Выезд`
is null; if any, log a warning carrying the count of skipped rows; return
the rows outside the mask. The second component is the list of warning
payloads emitted. -/
def validate_dates (rows : List PRow) : List PRow × List Nat :=
  let invalidCount := rows.countP fun r => r.arrival.isNone || r.departure.isNone
  (rows.filter fun r => !(r.arrival.isNone || r.departure.isNone),
   if 0 < invalidCount then [invalidCount] else [])

/-- A fully normalized row: non-null dates, the derived period column
`Месяц` and stay-length column `Дни_проживания`. -/
structure NRow where
  obj : String
  source : String
  amount : Rat
  income : Rat
  arrival : Date
  departure : Date
  month : Period
  stayDays : Int
deriving DecidableEq, Repr

/-- The sort key order of `df.sort_values(["Объект", "Заезд"])`:
lexicographic on (property, arrival timestamp). -/
def rowRel (a b : NRow) : Prop :=
  pairLe (a.obj, a.arrival.toDays) (b.obj, b.arrival.toDays)

instance : DecidableRel rowRel := by
  intro a b; unfold rowRel; infer_instance

instance : IsTotal NRow rowRel := ⟨fun _ _ => pairLe_total _ _⟩

instance : IsTrans NRow rowRel := ⟨fun _ _ _ => pairLe_trans⟩

/-- `df.sort_values(["Объект", "Заезд"])`: a multi-column
`DataFrame.sort_values` runs `np.lexsort`, which is stable; embedded as the
(stable) insertion sort under `rowRel`. -/
def sortRows (l : List NRow) : List NRow := l.insertionSort rowRel

/-- Steps 2–3 of `normalize_data`: compute the `Доход` column with
`calculate_income` row-wise, then parse `Заезд`/`Выезд` with
`pd.to_datetime(·, dayfirst=True, errors="coerce")` (the abstract `parse`
argument), nulls preserved as `none`. -/
def parsedRows (parse : String → Option Date) (rates : RateTable)
    (t : RawTable) : List PRow :=
  t.rows.map fun r =>
    { obj := r.obj, source := r.source, amount := r.amount,
      income := calculate_income rates r.source r.amount,
      arrival := parse r.arrival, departure := parse r.departure }

/-- Steps 5 and 7 of `normalize_data` for one surviving row: attach the
`Месяц` period of the arrival and the `Дни_проживания` whole-day
difference `(Выезд - Заезд).dt.days`; by construction these column
assignments are row-wise maps, so attaching both when leaving the
date-validation stage is extensionally the source's order of steps. Only
rows with both dates present reach this point (`validate_dates` just
removed the rest), hence the `none` branches are unreachable there. -/
def toNRow (r : PRow) : Option NRow :=
  match r.arrival, r.departure with
  | some a, some b =>
      some { obj := r.obj, source := r.source, amount := r.amount,
             income := r.income, arrival := a, departure := b,
             month := a.period, stayDays := b.toDays - a.toDays }
  | _, _ => none

/-- The normalizer's result: the surviving rows plus the warning payloads
(counts of rows dropped for null dates) logged along the way. -/
structure NormResult where
  rows : List NRow
  warnings : List Nat
deriving DecidableEq, Repr

/-- Step 1 of `normalize_data`: `missing = [col for col in
AppConfig.REQUIRED_COLUMNS if col not in df.columns]`. -/
def missingCols (t : RawTable) : List String :=
  REQUIRED_COLUMNS.filter fun c => decide (c ∉ t.cols)

/-- `normalize_data(df)`: (1) collect the required columns missing from
`df.columns` and raise `ValueError` naming them if any; (2) compute
`Доход`; (3) coerce `Заезд`/`Выезд` to dates; (4) drop null-date rows via
`validate_dates`; (5) derive `Месяц`; (6) sort by (`Объект`, `Заезд`);
(7) derive `Дни_проживания`; (8) keep only rows with positive stay. -/
def normalize_data (parse : String → Option Date) (rates : RateTable)
    (t : RawTable) : Except (List String) NormResult :=
  if missingCols t = [] then
    .ok { rows := (sortRows ((validate_dates
            (parsedRows parse rates t)).1.filterMap toNRow)).filter
              fun r => decide (0 < r.stayDays),
          warnings := (validate_dates (parsedRows parse rates t)).2 }
  else .error (missingCols t)

/-- One row of the monthly summary: the group key (`Объект`, `Месяц`) and
the two summed columns. -/
structure SummaryRow where
  obj : String
  month : Period
  stayDays : Int
  income : Rat
deriving DecidableEq, Repr

/-- One group of `df.groupby(["Объект", "Месяц"])[["Дни_проживания",
"Доход"]].sum()`: the rows with that key, with the two columns summed. -/
def groupSums (rows : List NRow) (k : String × Period) : SummaryRow :=
  let grp := rows.filter fun r => decide (r.obj = k.1 ∧ r.month = k.2)
  { obj := k.1, month := k.2,
    stayDays := (grp.map NRow.stayDays).sum,
    income := (grp.map NRow.income).sum }

/-- The sort key order of `grouped_df.sort_values(["Объект", "Месяц"])`:
lexicographic on (property, period), periods ordered chronologically,
i.e. lexicographically on (year, month). -/
def sumRel (s t : SummaryRow) : Prop :=
  s.obj < t.obj ∨ (s.obj = t.obj ∧ pairLe s.month t.month)

instance : DecidableRel sumRel := by
  intro s t; unfold sumRel; infer_instance

instance : IsTotal SummaryRow sumRel := by
  refine ⟨fun s t => ?_⟩
  rcases lt_trichotomy s.obj t.obj with h | h | h
  · exact Or.inl (Or.inl h)
  · rcases pairLe_total s.month t.month with h2 | h2
    · exact Or.inl (Or.inr ⟨h, h2⟩)
    · exact Or.inr (Or.inr ⟨h.symm, h2⟩)
  · exact Or.inr (Or.inl h)

instance : IsTrans SummaryRow sumRel := by
  refine ⟨fun s t u h1 h2 => ?_⟩
  rcases h1 with h1 | ⟨e1, m1⟩
  · rcases h2 with h2 | ⟨e2, _⟩
    · exact Or.inl (h1.trans h2)
    · exact Or.inl (e2 ▸ h1)
  · rcases h2 with h2 | ⟨e2, m2⟩
    · exact Or.inl (e1 ▸ h2)
    · exact Or.inr ⟨e1.trans e2, pairLe_trans m1 m2⟩

/-- `analyze_stay_days(df)` with the current system year-month passed
explicitly (`date.today()` read at call time): group the normalized rows
by (`Объект`, `Месяц`) and sum `Дни_проживания` and `Доход` per group, sort
the groups by (property, period), then keep only the groups whose period
equals the current year-month (the code compares the `Месяц` period column
against the string `f"{today.year}-{today.month}"`, which pandas coerces
back to that month's period). -/
def analyze_stay_days (today : Period) (rows : List NRow) : List SummaryRow :=
  (((rows.map fun r => (r.obj, r.month)).dedup.map
      (groupSums rows)).insertionSort sumRel).filter
    fun s => decide (s.month = today)

/-- The `mode` argument of `save2xlsx`: `"w"` (overwrite) or `"a"`
(append, the default). -/
inductive WriteMode
  | write
  | append
deriving DecidableEq, Repr

/-- One cell of a table handed to the writer: a timestamp (date plus
time-of-day), a plain calendar date (what `Series.dt.date` yields), a
number, or a string. -/
inductive Cell
  | ts (d : Date) (secs : Nat)
  | dt (d : Date)
  | num (q : Rat)
  | str (s : String)
deriving DecidableEq, Repr

/-- A DataFrame as the writer sees it: an ordered association of column
names to cell columns. -/
abbrev WTable := List (String × List Cell)

/-- The column-name list of a writer table (`df.columns`). -/
def colNames (t : WTable) : List String := t.map Prod.fst

/-- `Series.dt.date` element-wise: a timestamp loses its time-of-day and
becomes a plain calendar date; non-timestamp cells are untouched. -/
def stripTime : Cell → Cell
  | .ts d _ => .dt d
  | c => c

/-- Column assignment `df[name] = f(df[name])`: rewrite the named column
in place, leaving every other column alone. -/
def setCol (t : WTable) (name : String) (f : List Cell → List Cell) : WTable :=
  t.map fun c => if c.1 = name then (c.1, f c.2) else c

/-- `normalize_df_dates(df)`: `df["Заезд"] = df["Заезд"].dt.date` and
`df["Выезд"] = df["Выезд"].dt.date`, returning the (mutated) table. -/
def normalize_df_dates (t : WTable) : WTable :=
  setCol (setCol t "Заезд" (List.map stripTime)) "Выезд" (List.map stripTime)

/-- `sheet_name.replace("/", ".")`: every `/` character (illegal in
spreadsheet sheet names) is replaced by `.`. -/
def sanitizeSheetName (s : String) : String :=
  String.mk (s.data.map fun c => if c = '/' then '.' else c)

/-- A reference to a DataFrame object; python-level mutation is modelled
through an explicit store of tables. -/
abbrev Ref := Nat

/-- The object store: `Store[r]` is the table the reference `r` points
to. -/
abbrev Store := List WTable

/-- Everything observable about one `save2xlsx` call: the store after the
call (the copy appended at `copyRef`), the mode actually passed to
`ExcelWriter`, whether the append-without-file fallback message was
printed, the sanitized sheet name written, the table serialized into the
sheet, and the set of files existing afterwards. -/
structure SaveOutcome where
  store : Store
  copyRef : Ref
  modeUsed : WriteMode
  loggedViolation : Bool
  sheetNameWritten : String
  dataWritten : WTable
  fileSys : List String
deriving DecidableEq, Repr

/-- `save2xlsx(df, sheet_name, file_name, mode)`: take `df_copy =
df.copy()` (a fresh object — modelled as a fresh store slot); if the copy
has both the `Заезд` and `Выезд` columns, rebind it to
`normalize_df_dates(df_copy)` (mutating only the copy's slot); if
`mode="a"` and the target file does not exist, fall back to `mode="w"`
and print the logic-violation message; write the copy under the sanitized
sheet name. `fs` is the set of files existing before the call. -/
def save2xlsx (store : Store) (r : Ref) (sheet file : String)
    (mode : WriteMode) (fs : List String) : SaveOutcome :=
  let dfCopy := store.getD r []
  let rc := store.length
  let store1 := store ++ [dfCopy]
  let dfCopy2 :=
    if "Заезд" ∈ colNames dfCopy ∧ "Выезд" ∈ colNames dfCopy then
      normalize_df_dates dfCopy
    else dfCopy
  let store2 := store1.set rc dfCopy2
  let fallback := mode = .append ∧ file ∉ fs
  { store := store2
    copyRef := rc
    modeUsed := if fallback then .write else mode
    loggedViolation := decide fallback
    sheetNameWritten := sanitizeSheetName sheet
    dataWritten := dfCopy2
    fileSys := if file ∈ fs then fs else file :: fs }

/-- Test fixture: a concrete day-first parser defined on the date strings
the spec's scenarios use. -/
def parseFix : String → Option Date := fun s =>
  if s = "01.03.2025" then some ⟨2025, 3, 1⟩
  else if s = "03.03.2025" then some ⟨2025, 3, 3⟩
  else if s = "05.03.2025" then some ⟨2025, 3, 5⟩
  else none

/-- Test fixture: one raw booking row for `Hotel A` via `Booking.com`
with amount 1000 and the given date strings. -/
def rawFix (arr dep : String) : RawRow :=
  { obj := "Hotel A", source := "Booking.com", amount := 1000,
    arrival := arr, departure := dep }

/-- Test fixture: a raw table carrying exactly the required columns. -/
def tableFix (rows : List RawRow) : RawTable :=
  { cols := REQUIRED_COLUMNS, rows := rows }

/-- Test fixture: the normalized row produced from
`rawFix "01.03.2025" "03.03.2025"` under `parseFix` and an empty rate
table: stay length 2 and period 2025-03, as in the spec's scenario. -/
def nrFix : NRow :=
  { obj := "Hotel A", source := "Booking.com", amount := 1000,
    income := 1000, arrival := ⟨2025, 3, 1⟩, departure := ⟨2025, 3, 3⟩,
    month := (2025, 3), stayDays := 2 }

/-- C1: the computed income is the amount times the rate of the first
bucket (in table order) whose source set contains the record's source;
with no matching bucket the amount is returned unchanged. -/
theorem calculate_income_first_match (rates pre post : RateTable)
    (rate : Rat) (srcs : List String) (src : String) (amt : Rat) :
    (rates = pre ++ (rate, srcs) :: post → src ∈ srcs →
      (∀ b ∈ pre, src ∉ b.2) → calculate_income rates src amt = amt * rate)
    ∧ ((∀ b ∈ rates, src ∉ b.2) → calculate_income rates src amt = amt) := by
  constructor
  · intro hsplit hmem hpre
    subst hsplit
    induction pre with
    | nil => simp [calculate_income, hmem]
    | cons b rest ih =>
        have hb : src ∉ b.2 := hpre b (by simp)
        cases b with
        | mk r ss =>
            simp only [List.cons_append, calculate_income]
            rw [if_neg hb]
            exact ih fun b hb' => hpre b (List.mem_cons_of_mem _ hb')
  · intro hnone
    induction rates with
    | nil => rfl
    | cons b rest ih =>
        cases b with
        | mk r ss =>
            have hb : src ∉ ss := hnone (r, ss) (by simp)
            simp only [calculate_income]
            rw [if_neg hb]
            exact ih fun b hb' => hnone b (List.mem_cons_of_mem _ hb')

/-- Witness for C1: with the rate table `{"0.85": {"Booking.com"}}`, a
record with source `Booking.com` and amount 1000 gets income
`1000 * 0.85`; with the same table a record with source `Airbnb` keeps its
amount. -/
theorem calculate_income_first_match_witness :
    calculate_income [(0.85, ["Booking.com"])] "Booking.com" 1000 = 1000 * 0.85
    ∧ calculate_income [(0.85, ["Booking.com"])] "Airbnb" 500 = 500 := by
  constructor
  · exact (calculate_income_first_match [(0.85, ["Booking.com"])] [] []
      0.85 ["Booking.com"] "Booking.com" 1000).1 rfl (by decide)
      (fun b hb => by simp at hb)
  · exact (calculate_income_first_match [(0.85, ["Booking.com"])] [] []
      0.85 ["Booking.com"] "Airbnb" 500).2
      (by intro b hb; simp at hb; rw [hb]; decide)

/-- Unfolding lemma: the normalizer succeeds exactly when no required
column is missing, and then its result is the staged pipeline value. -/
theorem normalize_data_ok_iff {parse : String → Option Date}
    {rates : RateTable} {t : RawTable} {res : NormResult} :
    normalize_data parse rates t = .ok res ↔
      (missingCols t = [] ∧
       res = { rows := (sortRows ((validate_dates
                  (parsedRows parse rates t)).1.filterMap toNRow)).filter
                    fun r => decide (0 < r.stayDays),
               warnings := (validate_dates (parsedRows parse rates t)).2 }) := by
  by_cases h : missingCols t = []
  · rw [normalize_data, if_pos h]
    constructor
    · intro e; injection e with e; exact ⟨h, e.symm⟩
    · rintro ⟨-, rfl⟩; rfl
  · rw [normalize_data, if_neg h]
    constructor
    · intro e; cases e
    · rintro ⟨hc, -⟩; exact absurd hc h

/-- Unfolding lemma: the normalizer fails exactly when some required
column is missing, and the error names precisely the missing columns in
the required-column order. -/
theorem normalize_data_error_iff {parse : String → Option Date}
    {rates : RateTable} {t : RawTable} {miss : List String} :
    normalize_data parse rates t = .error miss ↔
      (miss = missingCols t ∧ miss ≠ []) := by
  by_cases h : missingCols t = []
  · rw [normalize_data, if_pos h]
    constructor
    · intro e; cases e
    · rintro ⟨rfl, hne⟩; exact absurd h hne
  · rw [normalize_data, if_neg h]
    constructor
    · intro e; injection e with e; exact ⟨e.symm, e ▸ h⟩
    · rintro ⟨rfl, -⟩; rfl

/-- Provenance of a surviving row: it passed the positive-stay filter, its
stay length is the whole-day difference of its dates, and it descends from
an input row both of whose date strings parsed successfully. -/
theorem mem_norm_rows {parse : String → Option Date} {rates : RateTable}
    {t : RawTable} {res : NormResult}
    (h : normalize_data parse rates t = .ok res) {nr : NRow}
    (hm : nr ∈ res.rows) :
    0 < nr.stayDays ∧
    nr.stayDays = nr.departure.toDays - nr.arrival.toDays ∧
    nr.month = nr.arrival.period ∧
    ∃ raw ∈ t.rows, parse raw.arrival = some nr.arrival ∧
      parse raw.departure = some nr.departure := by
  obtain ⟨-, hres⟩ := normalize_data_ok_iff.mp h
  subst hres
  simp only [List.mem_filter, decide_eq_true_eq] at hm
  obtain ⟨hsorted, hpos⟩ := hm
  have hx : nr ∈ (validate_dates (parsedRows parse rates t)).1.filterMap toNRow :=
    (List.mem_insertionSort rowRel).mp hsorted
  obtain ⟨pr, hpr, hto⟩ := List.mem_filterMap.mp hx
  have hpr2 : pr ∈ parsedRows parse rates t := by
    have := hpr
    unfold validate_dates at this
    exact (List.mem_filter.mp this).1
  obtain ⟨raw, hraw, hmap⟩ := List.mem_map.mp hpr2
  cases harr : pr.arrival with
  | none => rw [toNRow, harr] at hto; cases hto
  | some a =>
      cases hdep : pr.departure with
      | none => rw [toNRow, harr, hdep] at hto; cases hto
      | some b =>
          rw [toNRow, harr, hdep] at hto
          injection hto with hto
          subst hto
          refine ⟨hpos, rfl, rfl, raw, hraw, ?_, ?_⟩
          · rw [← harr, ← hmap]
          · rw [← hdep, ← hmap]

/-- The warnings of a successful normalization are exactly one count of
the input rows with an unparseable arrival or departure, emitted only when
that count is positive. -/
theorem norm_warnings_formula {parse : String → Option Date}
    {rates : RateTable} {t : RawTable} {res : NormResult}
    (h : normalize_data parse rates t = .ok res) :
    res.warnings =
      (if 0 < t.rows.countP
            (fun r => (parse r.arrival).isNone || (parse r.departure).isNone)
       then [t.rows.countP
            fun r => (parse r.arrival).isNone || (parse r.departure).isNone]
       else []) := by
  obtain ⟨-, hres⟩ := normalize_data_ok_iff.mp h
  subst hres
  show (validate_dates (parsedRows parse rates t)).2 = _
  unfold validate_dates parsedRows
  rw [List.countP_map]
  rfl

/-- C3: every record in the normalizer's output has a non-null arrival
date and a non-null departure date (both obtained as successful parses of
the input strings) and a stay length — departure minus arrival in whole
days — strictly greater than zero. -/
theorem normalize_rows_valid (parse : String → Option Date)
    (rates : RateTable) (t : RawTable) (res : NormResult)
    (h : normalize_data parse rates t = .ok res) :
    ∀ nr ∈ res.rows,
      0 < nr.stayDays ∧
      nr.stayDays = nr.departure.toDays - nr.arrival.toDays ∧
      ∃ raw ∈ t.rows, parse raw.arrival = some nr.arrival ∧
        parse raw.departure = some nr.departure := by
  intro nr hm
  obtain ⟨h1, h2, -, h3⟩ := mem_norm_rows h hm
  exact ⟨h1, h2, h3⟩

/-- Witness for C3: the spec's scenario row (arrival 01.03.2025,
departure 03.03.2025) survives normalization with stay length 2 and both
dates parsed. -/
theorem normalize_rows_valid_witness :
    0 < nrFix.stayDays ∧
    nrFix.stayDays = nrFix.departure.toDays - nrFix.arrival.toDays ∧
    ∃ raw ∈ (tableFix [rawFix "01.03.2025" "03.03.2025"]).rows,
      parseFix raw.arrival = some nrFix.arrival ∧
      parseFix raw.departure = some nrFix.departure :=
  normalize_rows_valid parseFix [] (tableFix [rawFix "01.03.2025" "03.03.2025"])
    ⟨[nrFix], []⟩ rfl nrFix (List.mem_singleton.mpr rfl)

/-- C4: the normalizer raises a validation failure naming exactly the
missing required columns whenever at least one is absent; the failure
depends only on the column list — not on the rows, the parser or the rate
table, so no per-row processing happens first — and when nothing is
missing no failure is raised. -/
theorem normalize_schema_check (parse : String → Option Date)
    (rates : RateTable) (t : RawTable) :
    (∀ miss, normalize_data parse rates t = .error miss ↔
        (miss = missingCols t ∧ miss ≠ []))
    ∧ (missingCols t ≠ [] →
        ∀ (parse' : String → Option Date) (rates' : RateTable)
          (rows' : List RawRow),
          normalize_data parse' rates' ⟨t.cols, rows'⟩ = .error (missingCols t))
    ∧ (missingCols t = [] → ∃ res, normalize_data parse rates t = .ok res) := by
  refine ⟨fun _ => normalize_data_error_iff, ?_, ?_⟩
  · intro hne parse' rates' rows'
    exact normalize_data_error_iff.mpr ⟨rfl, hne⟩
  · intro h
    exact ⟨_, normalize_data_ok_iff.mpr ⟨h, rfl⟩⟩

/-- Witness for C4: a table having only the `Объект` column fails naming
the four other required columns, for any rows; a table with all required
columns does not fail. -/
theorem normalize_schema_check_witness :
    normalize_data parseFix [] ⟨["Объект"], [rawFix "01.03.2025" "03.03.2025"]⟩
      = .error ["Источник", "Сумма", "Заезд", "Выезд"]
    ∧ ∃ res, normalize_data parseFix [] (tableFix []) = .ok res := by
  constructor
  · have h := (normalize_schema_check parseFix []
        ⟨["Объект"], [rawFix "01.03.2025" "03.03.2025"]⟩).2.1
        (by decide) parseFix [] [rawFix "01.03.2025" "03.03.2025"]
    have e : missingCols ⟨["Объект"], [rawFix "01.03.2025" "03.03.2025"]⟩
        = ["Источник", "Сумма", "Заезд", "Выезд"] := by decide
    rw [e] at h
    exact h
  · exact (normalize_schema_check parseFix [] (tableFix [])).2.2 (by decide)

/-- C5: the normalizer's output is sorted — property non-decreasing, and
arrival non-decreasing within equal property; the sort used (`sortRows`)
is stable (it fixes already-ordered input and keeps every ordered sublist
a sublist), and the subsequent positive-stay filter preserves the
ordering (the first conjunct is about the post-filter rows). -/
theorem normalize_rows_sorted (parse : String → Option Date)
    (rates : RateTable) (t : RawTable) (res : NormResult)
    (h : normalize_data parse rates t = .ok res) :
    res.rows.Pairwise (fun a b => a.obj ≤ b.obj ∧
      (a.obj = b.obj → a.arrival.toDays ≤ b.arrival.toDays))
    ∧ (∀ l : List NRow, l.Pairwise rowRel → sortRows l = l)
    ∧ (∀ l c : List NRow, c.Pairwise rowRel → c.Sublist l →
        c.Sublist (sortRows l)) := by
  refine ⟨?_, fun l hl => List.Sorted.insertionSort_eq hl,
    fun l c hc hcl => List.sublist_insertionSort hc hcl⟩
  obtain ⟨-, hres⟩ := normalize_data_ok_iff.mp h
  subst hres
  refine List.Pairwise.filter _ ?_
  have hs := List.sorted_insertionSort rowRel
    ((validate_dates (parsedRows parse rates t)).1.filterMap toNRow)
  refine hs.imp ?_
  intro a b hr
  rcases hr with hlt | ⟨heq, hle⟩
  · exact ⟨le_of_lt hlt, fun he => absurd (he ▸ hlt) (lt_irrefl _)⟩
  · exact ⟨le_of_eq heq, fun _ => hle⟩

/-- Witness for C5: the one-row scenario table is (trivially) sorted, and
the stability facts are available at that instance. -/
theorem normalize_rows_sorted_witness :
    ([nrFix] : List NRow).Pairwise (fun a b => a.obj ≤ b.obj ∧
      (a.obj = b.obj → a.arrival.toDays ≤ b.arrival.toDays))
    ∧ (∀ l : List NRow, l.Pairwise rowRel → sortRows l = l)
    ∧ (∀ l c : List NRow, c.Pairwise rowRel → c.Sublist l →
        c.Sublist (sortRows l)) :=
  normalize_rows_sorted parseFix []
    (tableFix [rawFix "01.03.2025" "03.03.2025"]) ⟨[nrFix], []⟩ rfl

/-- C6: with all required columns present, normalization never raises
(coercion makes unparseable date strings `none` and the pipeline returns
a result); date validation keeps exactly the rows whose arrival and
departure are both non-null, and the warnings consist of the single count
of rows with an unparseable arrival or departure, emitted exactly when
that count is positive. -/
theorem normalize_null_date_handling (parse : String → Option Date)
    (rates : RateTable) (t : RawTable) (h : missingCols t = []) :
    ∃ res, normalize_data parse rates t = .ok res ∧
      res.warnings =
        (if 0 < t.rows.countP
              (fun r => (parse r.arrival).isNone || (parse r.departure).isNone)
         then [t.rows.countP
              fun r => (parse r.arrival).isNone || (parse r.departure).isNone]
         else []) ∧
      (validate_dates (parsedRows parse rates t)).1
        = (parsedRows parse rates t).filter
            fun r => !(r.arrival.isNone || r.departure.isNone) := by
  have hok : normalize_data parse rates t = .ok _ :=
    normalize_data_ok_iff.mpr ⟨h, rfl⟩
  exact ⟨_, hok, norm_warnings_formula hok, rfl⟩

/-- Witness for C6: a two-row table whose second row has an unparseable
arrival string normalizes without raising, drops exactly that row at the
date-validation stage, and warns once with count 1. -/
theorem normalize_null_date_handling_witness :
    ∃ res, normalize_data parseFix []
        (tableFix [rawFix "01.03.2025" "03.03.2025", rawFix "garbage" "03.03.2025"])
        = .ok res ∧
      res.warnings =
        (if 0 < (tableFix [rawFix "01.03.2025" "03.03.2025",
                  rawFix "garbage" "03.03.2025"]).rows.countP
              (fun r => (parseFix r.arrival).isNone || (parseFix r.departure).isNone)
         then [(tableFix [rawFix "01.03.2025" "03.03.2025",
                  rawFix "garbage" "03.03.2025"]).rows.countP
              fun r => (parseFix r.arrival).isNone || (parseFix r.departure).isNone]
         else []) ∧
      (validate_dates (parsedRows parseFix []
          (tableFix [rawFix "01.03.2025" "03.03.2025", rawFix "garbage" "03.03.2025"]))).1
        = (parsedRows parseFix []
            (tableFix [rawFix "01.03.2025" "03.03.2025", rawFix "garbage" "03.03.2025"])).filter
            fun r => !(r.arrival.isNone || r.departure.isNone) :=
  normalize_null_date_handling parseFix []
    (tableFix [rawFix "01.03.2025" "03.03.2025", rawFix "garbage" "03.03.2025"])
    (by decide)

/-- C7: a record whose parsed dates give stay length ≤ 0 (equal or
inverted dates) never appears in the output, and the warnings are exactly
those of the null-date filter — the non-positive-stay drop logs nothing. -/
theorem nonpositive_stay_dropped_silently (parse : String → Option Date)
    (rates : RateTable) (t : RawTable) (res : NormResult) (a b : Date)
    (raw : RawRow) (h : normalize_data parse rates t = .ok res)
    (_hraw : raw ∈ t.rows) (_hpa : parse raw.arrival = some a)
    (_hpb : parse raw.departure = some b)
    (hst : b.toDays - a.toDays ≤ 0) :
    (∀ nr ∈ res.rows, ¬(nr.arrival = a ∧ nr.departure = b))
    ∧ res.warnings =
        (if 0 < t.rows.countP
              (fun r => (parse r.arrival).isNone || (parse r.departure).isNone)
         then [t.rows.countP
              fun r => (parse r.arrival).isNone || (parse r.departure).isNone]
         else []) := by
  refine ⟨?_, norm_warnings_formula h⟩
  rintro nr hm ⟨ha, hb⟩
  obtain ⟨hpos, hstay, -, -⟩ := mem_norm_rows h hm
  rw [hstay, ha, hb] at hpos
  omega

/-- Witness for C7: the spec's scenario — arrival and departure both
05.03.2025 — yields stay length 0; the row is dropped (output empty) and
no warning is logged. -/
theorem nonpositive_stay_dropped_silently_witness :
    (∀ nr ∈ (NormResult.mk [] []).rows,
        ¬(nr.arrival = Date.mk 2025 3 5 ∧ nr.departure = Date.mk 2025 3 5))
    ∧ (NormResult.mk [] []).warnings =
        (if 0 < (tableFix [rawFix "05.03.2025" "05.03.2025"]).rows.countP
              (fun r => (parseFix r.arrival).isNone || (parseFix r.departure).isNone)
         then [(tableFix [rawFix "05.03.2025" "05.03.2025"]).rows.countP
              fun r => (parseFix r.arrival).isNone || (parseFix r.departure).isNone]
         else []) :=
  nonpositive_stay_dropped_silently parseFix []
    (tableFix [rawFix "05.03.2025" "05.03.2025"]) ⟨[], []⟩
    (Date.mk 2025 3 5) (Date.mk 2025 3 5) (rawFix "05.03.2025" "05.03.2025")
    rfl (List.mem_singleton.mpr rfl) rfl rfl (by decide)

/-- C2: the aggregator returns exactly one row per distinct (property,
period) pair whose period is the current system year-month; each row's
stay-days and income totals are the sums over the normalized records with
that property and period; the rows are sorted by (property, period); and
the result is empty when no record's period is the current year-month. -/
theorem analyze_stay_days_spec (today : Period) (rows : List NRow) :
    (∀ s ∈ analyze_stay_days today rows,
        s.month = today ∧
        (∃ r ∈ rows, r.obj = s.obj ∧ r.month = s.month) ∧
        s.stayDays = ((rows.filter fun r =>
            decide (r.obj = s.obj ∧ r.month = s.month)).map NRow.stayDays).sum ∧
        s.income = ((rows.filter fun r =>
            decide (r.obj = s.obj ∧ r.month = s.month)).map NRow.income).sum)
    ∧ (∀ o m, (∃ r ∈ rows, r.obj = o ∧ r.month = m) → m = today →
        ∃ s ∈ analyze_stay_days today rows, s.obj = o ∧ s.month = m)
    ∧ ((analyze_stay_days today rows).map fun s => (s.obj, s.month)).Nodup
    ∧ (analyze_stay_days today rows).Pairwise (fun s u => s.obj ≤ u.obj ∧
        (s.obj = u.obj → pairLe s.month u.month))
    ∧ ((∀ r ∈ rows, r.month ≠ today) → analyze_stay_days today rows = []) := by
  refine ⟨?_, ?_, ?_, ?_, ?_⟩
  · intro s hs
    unfold analyze_stay_days at hs
    obtain ⟨hs1, hpred⟩ := List.mem_filter.mp hs
    have hs2 := (List.mem_insertionSort sumRel).mp hs1
    obtain ⟨k, hk, hks⟩ := List.mem_map.mp hs2
    obtain ⟨r, hr, hrk⟩ := List.mem_map.mp (List.mem_dedup.mp hk)
    subst hks
    subst hrk
    exact ⟨of_decide_eq_true hpred, ⟨r, hr, rfl, rfl⟩, rfl, rfl⟩
  · rintro o m ⟨r, hr, ho, hm⟩ htoday
    refine ⟨groupSums rows (o, m), ?_, rfl, rfl⟩
    unfold analyze_stay_days
    refine List.mem_filter.mpr ⟨?_, ?_⟩
    · refine (List.mem_insertionSort sumRel).mpr ?_
      refine List.mem_map.mpr ⟨(o, m), ?_, rfl⟩
      refine List.mem_dedup.mpr ?_
      exact List.mem_map.mpr ⟨r, hr, by rw [ho, hm]⟩
    · exact decide_eq_true htoday
  · unfold analyze_stay_days
    have h1 : List.Sublist
        (((((rows.map fun r => (r.obj, r.month)).dedup.map
          (groupSums rows)).insertionSort sumRel).filter
            (fun s => decide (s.month = today))).map (fun s => (s.obj, s.month)))
        ((((rows.map fun r => (r.obj, r.month)).dedup.map
          (groupSums rows)).insertionSort sumRel).map (fun s => (s.obj, s.month))) :=
      (List.filter_sublist _).map _
    have h2 : ((((rows.map fun r => (r.obj, r.month)).dedup.map
          (groupSums rows)).insertionSort sumRel).map (fun s => (s.obj, s.month))).Perm
        (((rows.map fun r => (r.obj, r.month)).dedup.map
          (groupSums rows)).map (fun s => (s.obj, s.month))) :=
      (List.perm_insertionSort sumRel _).map _
    have h3 : (((rows.map fun r => (r.obj, r.month)).dedup.map
          (groupSums rows)).map (fun s => (s.obj, s.month)))
        = (rows.map fun r => (r.obj, r.month)).dedup := by
      rw [List.map_map]
      exact List.map_id' _
    have h4 : ((((rows.map fun r => (r.obj, r.month)).dedup.map
          (groupSums rows)).insertionSort sumRel).map
            (fun s => (s.obj, s.month))).Nodup := by
      rw [h2.nodup_iff, h3]
      exact List.nodup_dedup _
    exact h4.sublist h1
  · unfold analyze_stay_days
    refine List.Pairwise.filter _ ?_
    refine (List.sorted_insertionSort sumRel _).imp ?_
    intro s u hr
    rcases hr with hlt | ⟨heq, hle⟩
    · exact ⟨le_of_lt hlt, fun he => absurd (he ▸ hlt) (lt_irrefl _)⟩
    · exact ⟨le_of_eq heq, fun _ => hle⟩
  · intro hnone
    unfold analyze_stay_days
    refine List.filter_eq_nil_iff.mpr ?_
    intro s hs
    obtain ⟨k, hk, hks⟩ := List.mem_map.mp ((List.mem_insertionSort sumRel).mp hs)
    obtain ⟨r, hr, hrk⟩ := List.mem_map.mp (List.mem_dedup.mp hk)
    subst hks
    subst hrk
    simpa using hnone r hr

/-- C8: in append mode with a missing target file the writer falls back
to overwrite mode and prints the logic-violation message (it returns
normally — the fallback replaces raising); with the file present, append
mode is kept and nothing is logged. -/
theorem save2xlsx_append_fallback (store : Store) (r : Ref)
    (sheet file : String) (mode : WriteMode) (fs : List String) :
    (mode = .append → file ∉ fs →
      (save2xlsx store r sheet file mode fs).modeUsed = .write ∧
      (save2xlsx store r sheet file mode fs).loggedViolation = true)
    ∧ (mode = .append → file ∈ fs →
      (save2xlsx store r sheet file mode fs).modeUsed = .append ∧
      (save2xlsx store r sheet file mode fs).loggedViolation = false) := by
  constructor
  · intro hm hf
    subst hm
    unfold save2xlsx
    simp [hf]
  · intro hm hf
    subst hm
    unfold save2xlsx
    simp [hf]

/-- Witness for C8: an append-mode call targeting `out.xlsx` when no file
exists falls back to overwrite mode and logs; the same call with
`out.xlsx` existing keeps append mode silently. -/
theorem save2xlsx_append_fallback_witness :
    ((save2xlsx [] 0 "sheet" "out.xlsx" .append []).modeUsed = .write ∧
     (save2xlsx [] 0 "sheet" "out.xlsx" .append []).loggedViolation = true)
    ∧ ((save2xlsx [] 0 "sheet" "out.xlsx" .append ["out.xlsx"]).modeUsed = .append ∧
       (save2xlsx [] 0 "sheet" "out.xlsx" .append ["out.xlsx"]).loggedViolation = false) :=
  ⟨(save2xlsx_append_fallback [] 0 "sheet" "out.xlsx" .append []).1 rfl (by decide),
   (save2xlsx_append_fallback [] 0 "sheet" "out.xlsx" .append ["out.xlsx"]).2 rfl (by decide)⟩

/-- Membership in a column assignment: each output column comes from an
input column, transformed when its name matches. -/
theorem mem_setCol {t : WTable} {name : String} {f : List Cell → List Cell}
    {p : String × List Cell} (hp : p ∈ setCol t name f) :
    ∃ q ∈ t, p = if q.1 = name then (q.1, f q.2) else q := by
  obtain ⟨q, hq, he⟩ := List.mem_map.mp hp
  exact ⟨q, hq, he.symm⟩

/-- `Series.dt.date` never yields a timestamp cell. -/
theorem stripTime_not_ts (c : Cell) (d : Date) (s : Nat) :
    stripTime c ≠ .ts d s := by
  cases c <;> simp [stripTime]

/-- After `normalize_df_dates`, the arrival/departure columns hold no
timestamp cells. -/
theorem normalize_df_dates_no_ts {t : WTable} {p : String × List Cell}
    (hp : p ∈ normalize_df_dates t) (hname : p.1 = "Заезд" ∨ p.1 = "Выезд") :
    ∀ cl ∈ p.2, ∀ d s, cl ≠ Cell.ts d s := by
  unfold normalize_df_dates at hp
  obtain ⟨q, hq, hpe⟩ := mem_setCol hp
  by_cases hq1 : q.1 = "Выезд"
  · rw [if_pos hq1] at hpe
    subst hpe
    intro cl hcl d s
    obtain ⟨c0, -, hc0e⟩ := List.mem_map.mp hcl
    rw [← hc0e]
    exact stripTime_not_ts c0 d s
  · rw [if_neg hq1] at hpe
    subst hpe
    obtain ⟨q', hq', hqe⟩ := mem_setCol hq
    rcases hname with h1 | h1
    · by_cases hq'1 : q'.1 = "Заезд"
      · rw [if_pos hq'1] at hqe
        subst hqe
        intro cl hcl d s
        obtain ⟨c0, -, hc0e⟩ := List.mem_map.mp hcl
        rw [← hc0e]
        exact stripTime_not_ts c0 d s
      · rw [if_neg hq'1] at hqe
        subst hqe
        exact absurd h1 hq'1
    · exact absurd h1 hq1

/-- C9: when the table has both the `Заезд` and `Выезд` columns, the data
actually written is the date-coerced table — those columns carry no
timestamp cells any more; and the sheet is written under the sanitized
name, which contains no path separator. -/
theorem save2xlsx_dates_and_sheet_name (store : Store) (r : Ref)
    (sheet file : String) (mode : WriteMode) (fs : List String) :
    ("Заезд" ∈ colNames (store.getD r []) ∧ "Выезд" ∈ colNames (store.getD r []) →
      (save2xlsx store r sheet file mode fs).dataWritten
        = normalize_df_dates (store.getD r []) ∧
      ∀ p ∈ (save2xlsx store r sheet file mode fs).dataWritten,
        (p.1 = "Заезд" ∨ p.1 = "Выезд") → ∀ cl ∈ p.2, ∀ d s, cl ≠ Cell.ts d s)
    ∧ (save2xlsx store r sheet file mode fs).sheetNameWritten
        = sanitizeSheetName sheet
    ∧ '/' ∉ (sanitizeSheetName sheet).data := by
  refine ⟨?_, rfl, ?_⟩
  · intro hcols
    have hd : (save2xlsx store r sheet file mode fs).dataWritten
        = normalize_df_dates (store.getD r []) := by
      show (if "Заезд" ∈ colNames (store.getD r [])
              ∧ "Выезд" ∈ colNames (store.getD r [])
            then normalize_df_dates (store.getD r [])
            else store.getD r [])
          = normalize_df_dates (store.getD r [])
      rw [if_pos hcols]
    refine ⟨hd, ?_⟩
    intro p hp hname
    rw [hd] at hp
    exact normalize_df_dates_no_ts hp hname
  · intro hmem
    obtain ⟨c, -, hce⟩ := List.mem_map.mp hmem
    by_cases h : c = '/'
    · rw [if_pos h] at hce
      exact absurd hce (by decide)
    · rw [if_neg h] at hce
      exact h hce

/-- The store after a writer call, spelled out: the copy is appended at
the fresh index and (only) that slot holds the possibly date-coerced
table. -/
theorem save2xlsx_store_eq (store : Store) (r : Ref) (sheet file : String)
    (mode : WriteMode) (fs : List String) :
    (save2xlsx store r sheet file mode fs).store
      = (store ++ [store.getD r []]).set store.length
          (if "Заезд" ∈ colNames (store.getD r [])
              ∧ "Выезд" ∈ colNames (store.getD r [])
           then normalize_df_dates (store.getD r [])
           else store.getD r []) := rfl

/-- C10: the caller's table is untouched — every store slot that existed
before the call (the argument's included) still holds its old table
afterwards; the date coercion only writes the fresh copy's slot. -/
theorem save2xlsx_preserves_caller (store : Store) (r : Ref)
    (sheet file : String) (mode : WriteMode) (fs : List String)
    (i : Nat) (hi : i < store.length) :
    (save2xlsx store r sheet file mode fs).store[i]? = store[i]? := by
  rw [save2xlsx_store_eq]
  rw [List.getElem?_set_ne (Nat.ne_of_lt hi).symm]
  rw [List.getElem?_append, if_pos hi]

/-- Witness for C10: a one-slot store whose table has a timestamp cell in
`Заезд` is unchanged at slot 0 by a writer call on it. -/
theorem save2xlsx_preserves_caller_witness :
    (save2xlsx [[("Заезд", [Cell.ts ⟨2025, 3, 1⟩ 0]),
        ("Выезд", [Cell.ts ⟨2025, 3, 3⟩ 0])]] 0 "s" "out.xlsx" .write []).store[0]?
      = [[("Заезд", [Cell.ts ⟨2025, 3, 1⟩ 0]),
          ("Выезд", [Cell.ts ⟨2025, 3, 3⟩ 0])]][0]? :=
  save2xlsx_preserves_caller
    [[("Заезд", [Cell.ts ⟨2025, 3, 1⟩ 0]), ("Выезд", [Cell.ts ⟨2025, 3, 3⟩ 0])]]
    0 "s" "out.xlsx" .write [] 0 (by decide)

/-- Witness for C9: a table with timestamp-valued `Заезд`/`Выезд` columns
written under sheet name `A/B` gets its date columns coerced and the
sheet name sanitized. -/
theorem save2xlsx_dates_and_sheet_name_witness :
    ((save2xlsx [[("Заезд", [Cell.ts ⟨2025, 3, 1⟩ 7]),
          ("Выезд", [Cell.ts ⟨2025, 3, 3⟩ 7])]] 0 "A/B" "out.xlsx"
          .write []).dataWritten
        = normalize_df_dates (([[("Заезд", [Cell.ts ⟨2025, 3, 1⟩ 7]),
            ("Выезд", [Cell.ts ⟨2025, 3, 3⟩ 7])]] : Store).getD 0 []) ∧
      ∀ p ∈ (save2xlsx [[("Заезд", [Cell.ts ⟨2025, 3, 1⟩ 7]),
          ("Выезд", [Cell.ts ⟨2025, 3, 3⟩ 7])]] 0 "A/B" "out.xlsx"
          .write []).dataWritten,
        (p.1 = "Заезд" ∨ p.1 = "Выезд") → ∀ cl ∈ p.2, ∀ d s, cl ≠ Cell.ts d s)
    ∧ (save2xlsx [[("Заезд", [Cell.ts ⟨2025, 3, 1⟩ 7]),
          ("Выезд", [Cell.ts ⟨2025, 3, 3⟩ 7])]] 0 "A/B" "out.xlsx"
          .write []).sheetNameWritten = sanitizeSheetName "A/B"
    ∧ '/' ∉ (sanitizeSheetName "A/B").data := by
  have h := save2xlsx_dates_and_sheet_name
    [[("Заезд", [Cell.ts ⟨2025, 3, 1⟩ 7]), ("Выезд", [Cell.ts ⟨2025, 3, 3⟩ 7])]]
    0 "A/B" "out.xlsx" .write []
  exact ⟨h.1 (by decide), h.2.1, h.2.2⟩
